import Mathlib

/-!
Shallow embedding of the survey data model of sympho-ru/research-visualizer
(src/survey.py).  Tables model pandas DataFrames: a list of column names and
a list of rows, each row carrying its pandas index label (a natural number)
together with its cells.  Cells are numbers (modelled as rationals), strings,
or the missing marker NaN.  Fallible operations return Except.
-/

inductive Cell where
  | num (q : ℚ)
  | str (s : String)
  | na
deriving DecidableEq, Repr

abbrev Row := Nat × List Cell

structure Table where
  cols : List String
  rows : List Row
deriving DecidableEq, Repr

inductive Err where
  | keyError (k : String)
  | indexError
  | nameError
  | valueError
  | assertionError
  | zeroDivisionError
deriving DecidableEq, Repr

/-- Survey.default_empty_code = 6101. -/
def defaultEmptyCode : Cell := Cell.num 6101

/-- Survey.default_empty_label = "(Not available)". -/
def defaultEmptyLabel : Cell := Cell.str "(Not available)"

def mapTable (f : Cell → Cell) (t : Table) : Table :=
  { cols := t.cols, rows := t.rows.map (fun r => (r.1, r.2.map f)) }

/-- df.replace(" ", np.nan): a cell equal to the one-space string becomes NaN. -/
def blankToNa (c : Cell) : Cell := if c = Cell.str " " then Cell.na else c

/-- df.replace(np.nan, repl). -/
def naTo (repl : Cell) (c : Cell) : Cell := if c = Cell.na then repl else c

def rowAllNa (cs : List Cell) : Bool := cs.all (fun c => decide (c = Cell.na))

/-- df.dropna(how="all"): drop the rows whose cells are all NaN; the
surviving rows keep their original index labels. -/
def dropna (t : Table) : Table :=
  { cols := t.cols, rows := t.rows.filter (fun r => !(rowAllNa r.2)) }

def digitsVal (cs : List Char) : Nat := cs.foldl (fun a c => a * 10 + (c.toNat - 48)) 0

def isWs (c : Char) : Bool := c.isWhitespace

/-- Python str.strip on a character list. -/
def trimChars (cs : List Char) : List Char :=
  ((cs.dropWhile isWs).reverse.dropWhile isWs).reverse

/-- Python int(s) on a string: optional surrounding whitespace, optional sign,
then a non-empty digit block. -/
def parseIntStr (s : String) : Option Int :=
  match trimChars s.toList with
  | [] => none
  | '-' :: ds => if ds ≠ [] ∧ ds.all Char.isDigit then some (-(digitsVal ds : Int)) else none
  | '+' :: ds => if ds ≠ [] ∧ ds.all Char.isDigit then some ((digitsVal ds : Int)) else none
  | ds => if ds.all Char.isDigit then some ((digitsVal ds : Int)) else none

/-- astype("int32") truncates a float toward zero. -/
def ratTrunc (q : ℚ) : Int := Int.tdiv q.num (q.den : Int)

/-- Whether one cell converts under column.astype("int32"), and to what. -/
def cellToInt (c : Cell) : Option Int :=
  match c with
  | Cell.num q => some (ratTrunc q)
  | Cell.str s => parseIntStr s
  | Cell.na => none

/-- The try branch of convert_to_numbers: column.astype(dtype); fails (raises
ValueError) when any cell does not convert. -/
def astypeColumn (col : List Cell) : Option (List Cell) :=
  if col.all (fun c => (cellToInt c).isSome) then
    some (col.map (fun c => Cell.num (((cellToInt c).getD 0 : Int) : ℚ)))
  else none

/-- np.unique sort order on Python 2 mixed object arrays: numbers sort below
strings, numbers by value, strings lexicographically; NaN sorts last (never
reached after the replace calls). -/
def cellLE (a b : Cell) : Bool :=
  match a, b with
  | Cell.num x, Cell.num y => decide (x ≤ y)
  | Cell.num _, _ => true
  | Cell.str _, Cell.num _ => false
  | Cell.str x, Cell.str y => decide (x ≤ y)
  | Cell.str _, Cell.na => true
  | Cell.na, Cell.na => true
  | Cell.na, _ => false

def cellLEr : Cell → Cell → Prop := fun a b => cellLE a b = true

instance : DecidableRel cellLEr := fun a b => Bool.decEq (cellLE a b) true

/-- The distinct values of a column in order of first appearance.  This is the
net effect of np.unique(column, return_index=True) followed by re-sorting the
unique values by their first-occurrence indices (calculate_value_label_mapping). -/
def firstDistinct (col : List Cell) : List Cell :=
  col.foldl (fun acc c => if c ∈ acc then acc else acc ++ [c]) []

/-- np.unique(column): the distinct values, sorted ascending. -/
def uniqueSorted (col : List Cell) : List Cell :=
  List.insertionSort cellLEr (firstDistinct col)

/-- The enumerate loop of build_one_hot_column: for i, value in
enumerate(unique_values): if value != empty_code: column = column.replace(value, i).
Note the index advances on the skipped sentinel as well. -/
def ohAux (empty_code : Cell) : Nat → List Cell → List Cell → List Cell
  | _, [], col => col
  | i, v :: vs, col =>
      ohAux empty_code (i + 1) vs
        (if v = empty_code then col
         else col.map (fun c => if c = v then Cell.num (i : ℚ) else c))

def build_one_hot_column (column : List Cell) (empty_code : Cell := defaultEmptyCode) :
    List Cell :=
  ohAux empty_code 0 (uniqueSorted column) column

/-- column.astype(dtype) after one-hot encoding.  Every cell of a one-hot
encoded column is numeric (each distinct value, including every string, was
replaced by its enumeration index unless it equals the numeric sentinel), so
the conversion never fails; the na fallback is unreachable. -/
def forceNum (c : Cell) : Cell :=
  match cellToInt c with
  | some n => Cell.num (n : ℚ)
  | none => Cell.na

def processColumn (col : List Cell) : List Cell :=
  match astypeColumn col with
  | some c => c
  | none => (build_one_hot_column col).map forceNum

def colAt (t : Table) (i : Nat) : List Cell := t.rows.map (fun r => r.2.getD i Cell.na)

def rebuildRows (newCols : List (List Cell)) : Nat → List Row → List Row
  | _, [] => []
  | p, r :: rs => (r.1, newCols.map (fun c => c.getD p Cell.na)) :: rebuildRows newCols (p + 1) rs

/-- convert_to_numbers: each column is converted with astype, falling back to
one-hot encoding, column by column; the columns are reassembled positionally. -/
def convert_to_numbers (t : Table) : Table :=
  let nc := (List.range t.cols.length).map (fun i => processColumn (colAt t i))
  { cols := t.cols, rows := rebuildRows nc 0 t.rows }

/-- process_values: replace " " by NaN, drop all-NaN rows, replace NaN by the
empty code, make everything numeric. -/
def process_values (t : Table) : Table :=
  convert_to_numbers (mapTable (naTo defaultEmptyCode) (dropna (mapTable blankToNa t)))

/-- process_labels: replace " " by NaN, drop all-NaN rows, replace NaN by the
empty label. -/
def process_labels (t : Table) : Table :=
  mapTable (naTo defaultEmptyLabel) (dropna (mapTable blankToNa t))

/-! ## parse_variable_label_mapping -/

/-- Python str.split("\n") on a character list. -/
def splitNl : List Char → List (List Char)
  | [] => [[]]
  | c :: cs =>
      if c = '\n' then [] :: splitNl cs
      else
        match splitNl cs with
        | h :: tl => (c :: h) :: tl
        | [] => [[c]]

/-- Normalize one Python slice bound against a length. -/
def pyNorm (i : Int) (n : Nat) : Nat :=
  if i < 0 then ((n : Int) + i).toNat else min i.toNat n

/-- Python s[a:b] slicing with negative-index handling. -/
def pySlice (cs : List Char) (a b : Int) : List Char :=
  let lo := pyNorm a cs.length
  let hi := pyNorm b cs.length
  (cs.drop lo).take (hi - lo)

/-- Python str.find: index of the first occurrence, or -1. -/
def pyFind (cs : List Char) (ch : Char) : Int :=
  match cs.findIdx? (fun c => c = ch) with
  | some k => (k : Int)
  | none => -1

/-- Python s[-n:]: the last n characters (the whole string when shorter). -/
def lastChars (n : Nat) (cs : List Char) : List Char := cs.drop (cs.length - n)

/-- Python str.isdigit: non-empty and all digits. -/
def isDigitBlock (cs : List Char) : Bool := !cs.isEmpty && cs.all Char.isDigit

/-- The skip condition: line[0:8] == "Variable" or "═" in line or line == "". -/
def skipLine (t : List Char) : Bool :=
  decide (t.take 8 = "Variable".toList) || t.contains '═' || t.isEmpty

/-- line[-8:].strip().isdigit(): the line opens a new variable entry. -/
def isCodeLine (t : List Char) : Bool := isDigitBlock (trimChars (lastChars 8 t))

/-- Python dict lookup on an insertion-ordered association list. -/
def findVal {β : Type} (k : String) : List (String × β) → Option β
  | [] => none
  | p :: ps => if p.1 = k then some p.2 else findVal k ps

/-- Python dict assignment d[k] = v: overwrite in place, or append. -/
def updateAssoc {β : Type} (m : List (String × β)) (k : String) (v : β) :
    List (String × β) :=
  if m.any (fun p => decide (p.1 = k)) then
    m.map (fun p => if p.1 = k then (k, v) else p)
  else m ++ [(k, v)]

/-- The line loop of parse_variable_label_mapping, carrying the coding dict and
the current code and description (initialized to "foo" and "bar"). -/
def codeOf (t : List Char) : String := String.mk (pySlice t 0 (pyFind t ' '))

def descOf (t : List Char) : String := String.mk (trimChars (pySlice t (pyFind t ' ') (-8)))

def plAux : List (List Char) → List (String × String) → String → String →
    List (String × String)
  | [], coding, _, _ => coding
  | l :: ls, coding, code, description =>
      if skipLine (trimChars l) then plAux ls coding code description
      else if isCodeLine (trimChars l) then
        plAux ls (updateAssoc coding (codeOf (trimChars l)) (descOf (trimChars l)))
          (codeOf (trimChars l)) (descOf (trimChars l))
      else
        plAux ls (updateAssoc coding code (description ++ " " ++ String.mk (trimChars l)))
          code (description ++ " " ++ String.mk (trimChars l))

def parse_variable_label_mapping (data_variables : String) : List (String × String) :=
  plAux (splitNl data_variables.toList) [] "foo" "bar"

/-! ## The Survey entity -/

structure Survey where
  data_values : Table
  data_labels : Table
  data_variables : String
  variable_label_mapping : List (String × String)
  total_weight : ℚ
  value_label_mapping : List (String × List (Cell × Cell))
  num_rows : Nat
  num_cols : Nat
deriving DecidableEq, Repr

def findColIdx : List String → String → Option Nat
  | [], _ => none
  | c :: cs, name => if c = name then some 0 else (findColIdx cs name).map (· + 1)

/-- df[name]: the column as a list of cells, positionally; KeyError when the
column identifier is unknown. -/
def getColByName (t : Table) (name : String) : Except Err (List Cell) :=
  match findColIdx t.cols name with
  | none => Except.error (Err.keyError name)
  | some j => Except.ok (t.rows.map (fun r => r.2.getD j Cell.na))

/-- df[name] = cells: overwrite an existing column or append a new one. -/
def setColumn (t : Table) (name : String) (cells : List Cell) : Table :=
  match findColIdx t.cols name with
  | some j =>
      { cols := t.cols,
        rows := (t.rows.zip cells).map (fun rc => (rc.1.1, rc.1.2.set j rc.2)) }
  | none =>
      { cols := t.cols ++ [name],
        rows := (t.rows.zip cells).map (fun rc => (rc.1.1, rc.1.2 ++ [rc.2])) }

/-- np.ones(n) assigned as a column. -/
def onesColumn (n : Nat) : List Cell := List.replicate n (Cell.num 1)

/-- The numeric content of a cell, as summed by pandas Series.sum over a
numeric column. -/
def cellQ (c : Cell) : ℚ :=
  match c with
  | Cell.num q => q
  | _ => 0

/-- One column of calculate_value_label_mapping: zip the column's distinct
values (ordered by first appearance) with its distinct labels (same order);
IndexError when there are more distinct values than distinct labels. -/
def vlmForColumn (dv dl : Table) (cname : String) : Except Err (List (Cell × Cell)) :=
  match getColByName dv cname with
  | Except.error e => Except.error e
  | Except.ok vcolumn =>
    match getColByName dl cname with
    | Except.error e => Except.error e
    | Except.ok lcolumn =>
      let vd := firstDistinct vcolumn
      let ld := firstDistinct lcolumn
      if vd.length ≤ ld.length then Except.ok (vd.zip ld) else Except.error Err.indexError

def vlmAux (dv dl : Table) : List String → List (String × List (Cell × Cell)) →
    Except Err (List (String × List (Cell × Cell)))
  | [], acc => Except.ok acc
  | c :: cs, acc =>
    match vlmForColumn dv dl c with
    | Except.error e => Except.error e
    | Except.ok m => vlmAux dv dl cs (updateAssoc acc c m)

def calculate_value_label_mapping (dv dl : Table) :
    Except Err (List (String × List (Cell × Cell))) :=
  vlmAux dv dl dv.cols []

/-- Survey.__init__: clean both tables, parse the variable text, append the
Weights column of ones to both tables (a pandas length mismatch between the
two cleaned tables raises ValueError here), compute the total weight and the
value-label mapping, and finally assert that the two raw inputs had equally
many rows. -/
def Survey.init (data_values data_labels : Table) (data_variables : String) :
    Except Err Survey :=
  let pv := process_values data_values
  let pl := process_labels data_labels
  let varmap0 := parse_variable_label_mapping data_variables
  let pv2 := setColumn pv "Weights" (onesColumn pv.rows.length)
  if pl.rows.length = pv.rows.length then
    let pl2 := setColumn pl "Weights" (onesColumn pv.rows.length)
    let varmap := updateAssoc varmap0 "Weights" "Weights"
    match getColByName pv2 "Weights" with
    | Except.error e => Except.error e
    | Except.ok wcolumn =>
      match calculate_value_label_mapping pv2 pl2 with
      | Except.error e => Except.error e
      | Except.ok vlm =>
        if data_values.rows.length = data_labels.rows.length then
          Except.ok
            { data_values := pv2
              data_labels := pl2
              data_variables := data_variables
              variable_label_mapping := varmap
              total_weight := (wcolumn.map cellQ).sum
              value_label_mapping := vlm
              num_rows := pv2.rows.length
              num_cols := pv2.cols.length }
        else Except.error Err.assertionError
  else Except.error Err.valueError

/-- calculate_total_weight: self.data_values["Weights"].sum(). -/
def calculate_total_weight (s : Survey) : Except Err ℚ :=
  match getColByName s.data_values "Weights" with
  | Except.error e => Except.error e
  | Except.ok wcolumn => Except.ok ((wcolumn.map cellQ).sum)

/-! ## drop_rows, set_weights, tallying, subset -/

/-- The index-collection loop of drop_rows: for each listed column, scan the
rows positionally and record every position whose value lies in that column's
exclusion list.  KeyError on an unknown column identifier. -/
def collectDropIndices (s : Survey) : List (String × List Cell) → Except Err (List Nat)
  | [] => Except.ok []
  | (cname, vals) :: rest =>
    match getColByName s.data_values cname with
    | Except.error e => Except.error e
    | Except.ok column =>
      match collectDropIndices s rest with
      | Except.error e => Except.error e
      | Except.ok more =>
        Except.ok
          (((List.range s.data_values.rows.length).filter
              (fun r => decide (column.getD r Cell.na ∈ vals))) ++ more)

/-- df.drop(idxs, axis=0): remove the rows whose index LABEL is listed; pandas
raises KeyError when some listed label is absent from the index.  Note the
collected values are positions, so this only matches drop_rows intent when the
index is the dense 0-based range. -/
def dropByLabels (t : Table) (idxs : List Nat) : Except Err Table :=
  if idxs.all (fun i => (t.rows.map Prod.fst).contains i) then
    Except.ok { cols := t.cols, rows := t.rows.filter (fun r => !(idxs.contains r.1)) }
  else Except.error (Err.keyError "label")

def renumberRows : Nat → List Row → List Row
  | _, [] => []
  | i, r :: rs => (i, r.2) :: renumberRows (i + 1) rs

/-- df.index = range(len(df)). -/
def reindexTable (t : Table) : Table :=
  { cols := t.cols, rows := renumberRows 0 t.rows }

/-- drop_rows: no-op on an empty exclusion mapping; otherwise collect the
positional indices of matching rows, drop them (by label) from both tables and
reindex.  total_weight, value_label_mapping, num_rows are not recomputed. -/
def drop_rows (s : Survey) (exclude_values : List (String × List Cell)) :
    Except Err Survey :=
  if exclude_values.isEmpty then Except.ok s
  else
    match collectDropIndices s exclude_values with
    | Except.error e => Except.error e
    | Except.ok row_indices =>
      match dropByLabels s.data_values row_indices with
      | Except.error e => Except.error e
      | Except.ok dv =>
        match dropByLabels s.data_labels row_indices with
        | Except.error e => Except.error e
        | Except.ok dl =>
          Except.ok { s with data_values := reindexTable dv, data_labels := reindexTable dl }

/-- Python str(value) for a cell.  In the pipeline this is applied to the
int32 cells of a cleaned values column, giving the plain decimal string; the
branch for a non-integer rational stands in for the float repr and is not
reached by integer-coded tables. -/
def pyStr (c : Cell) : String :=
  match c with
  | Cell.num q => if q.den = 1 then toString q.num else toString q.num ++ "/" ++ toString q.den
  | Cell.str s => s
  | Cell.na => "nan"

/-- The reweighting loop of set_weights: for each np.unique value of the
column, look the STRINGIFIED value up in the spec (KeyError when missing,
ZeroDivisionError when the raw weights sum to zero) and replace occurrences of
that string in the working column by the computed weight.  The replace target
is the stringified value, exactly as in the source. -/
def swAux (spec : List (String × ℚ)) (k total : ℚ) : List Cell → List Cell →
    Except Err (List Cell)
  | [], acc => Except.ok acc
  | v :: vs, acc =>
    let key := pyStr v
    match findVal key spec with
    | none => Except.error (Err.keyError key)
    | some w =>
      if total = 0 then Except.error Err.zeroDivisionError
      else
        swAux spec k total vs
          (acc.map (fun c => if c = Cell.str key then Cell.num (k * w / total) else c))

/-- set_weights: no-op on an empty spec; otherwise take the first listed
column, rebuild the Weights column from a copy of that column via the
string-keyed replace loop, store it in both tables and recompute total_weight. -/
def set_weights (s : Survey) (weights : List (String × List (String × ℚ))) :
    Except Err Survey :=
  match weights with
  | [] => Except.ok s
  | (column_name, spec) :: _ =>
    match getColByName s.data_values column_name with
    | Except.error e => Except.error e
    | Except.ok column =>
      let total := (spec.map Prod.snd).sum
      let uv := uniqueSorted column
      match swAux spec (uv.length : ℚ) total uv column with
      | Except.error e => Except.error e
      | Except.ok new_column =>
        let dv := setColumn s.data_values "Weights" new_column
        let dl := setColumn s.data_labels "Weights" new_column
        match getColByName dv "Weights" with
        | Except.error e => Except.error e
        | Except.ok wcolumn =>
          Except.ok { s with data_values := dv, data_labels := dl,
                             total_weight := (wcolumn.map cellQ).sum }

/-- Python 2 round(): round half away from zero; int(round(x)). -/
def pyRound (q : ℚ) : Int :=
  if q < 0 then -(Int.floor (-q + 1/2)) else Int.floor (q + 1/2)

/-- Sort order of Python list.sort() on (value, count) tuples. -/
def pairLE (a b : Cell × Int) : Bool :=
  (cellLE a.1 b.1 && !(cellLE b.1 a.1)) || (decide (a.1 = b.1) && decide (a.2 ≤ b.2))

def pairLEr : (Cell × Int) → (Cell × Int) → Prop := fun a b => pairLE a b = true

instance : DecidableRel pairLEr := fun a b => Bool.decEq (pairLE a b) true

def sortPairs (l : List (Cell × Int)) : List (Cell × Int) := List.insertionSort pairLEr l

/-- self.data_values["Weights"][self.data_values[column] == value].sum(),
then int(round(...)). -/
def weightedCountFor (vcolumn wcolumn : List Cell) (v : Cell) : Int :=
  pyRound ((((vcolumn.zip wcolumn).filter (fun p => decide (p.1 = v))).map
      (fun p => cellQ p.2)).sum)

/-- (self.data_values[column] == value).sum(). -/
def rawCountFor (vcolumn : List Cell) (v : Cell) : Int :=
  ((vcolumn.filter (fun c => decide (c = v))).length : Int)

/-- get_column_value_counts: one (value, count) pair per key of the column's
value-label map, weighted or raw, sorted before returning.  The column lookups
are hoisted out of the per-value loop; the behaviour only differs from the
source on an empty key list combined with a missing column. -/
def get_column_value_counts (s : Survey) (column_name : String)
    (use_weights : Bool := true) : Except Err (List (Cell × Int)) :=
  match findVal column_name s.value_label_mapping with
  | none => Except.error (Err.keyError column_name)
  | some m =>
    match getColByName s.data_values column_name with
    | Except.error e => Except.error e
    | Except.ok vcolumn =>
      if use_weights then
        match getColByName s.data_values "Weights" with
        | Except.error e => Except.error e
        | Except.ok wcolumn =>
          Except.ok (sortPairs ((m.map Prod.fst).map
            (fun v => (v, weightedCountFor vcolumn wcolumn v))))
      else
        Except.ok (sortPairs ((m.map Prod.fst).map (fun v => (v, rawCountFor vcolumn v))))

/-- One iteration of the filter loop of get_subset_survey: mask the ORIGINAL
tables by equality on the given column; each iteration overwrites the working
pair, so the last filter entry wins.  The kept rows keep their index labels. -/
def filterTablesBy (s : Survey) (varname : String) (value : Cell) :
    Except Err (Table × Table) :=
  match getColByName s.data_values varname with
  | Except.error e => Except.error e
  | Except.ok column =>
    let mask := column.map (fun c => decide (c = value))
    Except.ok
      ({ cols := s.data_values.cols,
         rows := ((s.data_values.rows.zip mask).filter (fun p => p.2)).map Prod.fst },
       { cols := s.data_labels.cols,
         rows := ((s.data_labels.rows.zip mask).filter (fun p => p.2)).map Prod.fst })

def subsetAux (s : Survey) : List (String × Cell) → (Table × Table) →
    Except Err (Table × Table)
  | [], acc => Except.ok acc
  | (varname, value) :: rest, _ =>
    match filterTablesBy s varname value with
    | Except.error e => Except.error e
    | Except.ok acc2 => subsetAux s rest acc2

/-- get_subset_survey: iterate the filter mapping (NameError on an empty
filter, because the loop body then never binds the working tables) and build a
brand-new Survey from the last filtered pair and the stored variable text. -/
def get_subset_survey (s : Survey) (filter : List (String × Cell)) : Except Err Survey :=
  match filter with
  | [] => Except.error Err.nameError
  | f :: fs =>
    match filterTablesBy s f.1 f.2 with
    | Except.error e => Except.error e
    | Except.ok acc =>
      match subsetAux s fs acc with
      | Except.error e => Except.error e
      | Except.ok pair => Survey.init pair.1 pair.2 s.data_variables

deriving instance DecidableEq for Except

/-! ## Concrete inputs used by the claim theorems -/

/-- The 79-character box-drawing separator line of the sample text. -/
def sampleSeparator : String := String.mk (List.replicate 79 '═')

/-- The section-8 sample of the variable-description text. -/
def sampleVariables : String :=
  "Variable            Label                                              Position\n" ++
  sampleSeparator ++ "\n" ++
  "                 S5 What field do you work in?                                7\n" ++
  "                 S6 Which of the following better describes your              8\n" ++
  "                    current employment status?"

def c1tv : Table := { cols := ["A"], rows := [(0, [Cell.str " "]), (1, [Cell.num 1])] }

def c1tl : Table := { cols := ["A"], rows := [(0, [Cell.str "x"]), (1, [Cell.str " "])] }

def c2tv : Table := { cols := ["A"], rows := [(0, [Cell.num 1]), (1, [Cell.num 2])] }

def c2tl : Table := { cols := ["A"], rows := [(0, [Cell.str "x"]), (1, [Cell.str "y"])] }

def c8tv : Table :=
  { cols := ["A"],
    rows := [(0, [Cell.num 5]), (1, [Cell.str " "]), (2, [Cell.num 6]), (3, [Cell.num 7])] }

def c8tl : Table :=
  { cols := ["A"],
    rows := [(0, [Cell.str "a"]), (1, [Cell.str " "]), (2, [Cell.str "b"]), (3, [Cell.str "c"])] }

def c9tv : Table :=
  { cols := ["COUNTRY"], rows := [(0, [Cell.num 9]), (1, [Cell.num 4]), (2, [Cell.num 9])] }

def c9tl : Table :=
  { cols := ["COUNTRY"],
    rows := [(0, [Cell.str "USA"]), (1, [Cell.str "DE"]), (2, [Cell.str "USA"])] }

/-! ## C5 -/

/-- C5: parse applied to the sample variable-description text of section 8
returns exactly the mapping S5 ↦ "What field do you work in?" and
S6 ↦ "Which of the following better describes your current employment
status?", with the two lines of the S6 question space-joined. -/
theorem c5_parse_sample :
    parse_variable_label_mapping sampleVariables =
      [("S5", "What field do you work in?"),
       ("S6", "Which of the following better describes your current employment status?")] := by
  with_unfolding_all decide

/-! ## C1: counterexample -/

/-- C1 counterexample: on these two one-column inputs (the values row 0 is
all-blank, the labels row 1 is all-blank) construction succeeds, yet the
cleaned values table keeps row index 1 while the cleaned labels table keeps
row index 0 — the shapes agree only by accident of the ValueError length
guard, and the row index sets differ, refuting the claim for all inputs. -/
theorem c1_counterexample :
    (Survey.init c1tv c1tl "").map
        (fun s => (s.data_values.rows.map Prod.fst, s.data_labels.rows.map Prod.fst)) =
      Except.ok ([1], [0]) ∧ ([1] : List Nat) ≠ [0] := by
  constructor
  · with_unfolding_all decide
  · decide

/-! ## C2: counterexample -/

/-- C2 counterexample: construct a two-row dataset (totalWeight 2), then
dropRows one row; the stored totalWeight is still 2 although the Weights
column now sums to 1, so dropRows does not recompute totalWeight. -/
theorem c2_counterexample :
    ((Survey.init c2tv c2tl "").bind (fun s => drop_rows s [("A", [Cell.num 2])])).map
        (fun s => (s.total_weight, calculate_total_weight s)) =
      Except.ok (2, Except.ok 1) ∧ (2 : ℚ) ≠ 1 := by
  constructor
  · with_unfolding_all decide
  · with_unfolding_all decide

/-! ## C3: the set_weights stringification bug -/

/-- C3: on a dataset whose column A holds the integers 1 and 2, the uniform
spec assigning raw weight 1 to both distinct values should (per the claim)
make every row weight |distinct| * 1 / 2 = 1.0; the code instead stringifies
each value before the replace call, the string never matches an integer cell,
and the Weights column ends up holding the raw column values [1, 2], which
are not all equal. -/
theorem c3_set_weights_bug :
    ((Survey.init c2tv c2tl "").bind
        (fun s => set_weights s [("A", [("1", 1), ("2", 1)])])).bind
        (fun s => getColByName s.data_values "Weights") =
      Except.ok [Cell.num 1, Cell.num 2] ∧ Cell.num 1 ≠ Cell.num 2 := by
  constructor
  · with_unfolding_all decide
  · with_unfolding_all decide

/-! ## C4: counterexample -/

/-- C4 counterexample: in the column ["C", "A"] the first-appearance order is
C, A, so the claim predicts C ↦ 0 and A ↦ 1, i.e. the encoded column
[0, 1]; the code enumerates np.unique's SORTED distinct values (A before C)
and produces [1, 0]. -/
theorem c4_counterexample :
    build_one_hot_column [Cell.str "C", Cell.str "A"] = [Cell.num 1, Cell.num 0] ∧
      ([Cell.num 1, Cell.num 0] : List Cell) ≠ [Cell.num 0, Cell.num 1] := by
  constructor
  · with_unfolding_all decide
  · with_unfolding_all decide

/-! ## C6: counterexample -/

/-- C6 counterexample: a text whose only line is a continuation line (it is
not skipped and does not end in a digit block) does not make parse fail; the
parser silently appends the line to the placeholder pair code "foo",
description "bar", and returns an ordinary mapping. -/
theorem c6_counterexample :
    parse_variable_label_mapping "hello" = [("foo", "bar hello")] := by
  with_unfolding_all decide

/-! ## C8: the drop_rows label/position bug -/

/-- C8: drop_rows is not idempotent.  The input table has an all-blank second
row, so cleaning leaves the pandas index [0, 2, 3] over the values [5, 6, 7].
drop_rows({"A": {7}}) records the POSITION 2 of the matching value 7 but then
drops the index LABEL 2, removing the row holding 6 and keeping 7; the same
call again then removes 7, so the second application is not a no-op (it turns
column A from [5, 7] into [5]).  An empty exclusion mapping is still a no-op. -/
theorem c8_drop_rows_bug :
    ((Survey.init c8tv c8tl "").bind (fun s => drop_rows s [("A", [Cell.num 7])])).bind
        (fun s => getColByName s.data_values "A") = Except.ok [Cell.num 5, Cell.num 7] ∧
    (((Survey.init c8tv c8tl "").bind (fun s => drop_rows s [("A", [Cell.num 7])])).bind
        (fun s => drop_rows s [("A", [Cell.num 7])])).bind
        (fun s => getColByName s.data_values "A") = Except.ok [Cell.num 5] ∧
    (Survey.init c8tv c8tl "").bind (fun s => drop_rows s []) =
      Survey.init c8tv c8tl "" := by
  refine ⟨?_, ?_, ?_⟩
  · with_unfolding_all decide
  · with_unfolding_all decide
  · with_unfolding_all decide

/-! ## C9 -/

/-- C9: on the three-row dataset whose COUNTRY column holds [9, 4, 9], subset
with the filter COUNTRY = 9 builds a brand-new two-row Survey; running
dropRows and setWeights on the subset succeeds and, the embedding being pure
state-passing of the copied tables, the parent still evaluates to its
original three COUNTRY values afterwards. -/
theorem c9_subset_demo :
    ((Survey.init c9tv c9tl "").bind
        (fun p => get_subset_survey p [("COUNTRY", Cell.num 9)])).map Survey.num_rows =
      Except.ok 2 ∧
    (((Survey.init c9tv c9tl "").bind
        (fun p => get_subset_survey p [("COUNTRY", Cell.num 9)])).bind
        (fun c => drop_rows c [("COUNTRY", [Cell.num 4])])).map
        (fun c => c.data_values.rows.length) = Except.ok 2 ∧
    (((Survey.init c9tv c9tl "").bind
        (fun p => get_subset_survey p [("COUNTRY", Cell.num 9)])).bind
        (fun c => set_weights c [("COUNTRY", [("9", 1)])])).map
        (fun c => c.data_values.rows.length) = Except.ok 2 ∧
    (Survey.init c9tv c9tl "").bind (fun p => getColByName p.data_values "COUNTRY") =
      Except.ok [Cell.num 9, Cell.num 4, Cell.num 9] := by
  refine ⟨?_, ?_, ?_, ?_⟩
  · with_unfolding_all decide
  · with_unfolding_all decide
  · with_unfolding_all decide
  · with_unfolding_all decide

/-! ## C1: the amended cleaning alignment -/

/-- A row every cell of which is the one-space blank or NaN: exactly the rows
that dropna(how="all") removes after the blank-to-NaN replace. -/
def rowMissing (cs : List Cell) : Bool :=
  cs.all (fun c => decide (c = Cell.str " " ∨ c = Cell.na))

theorem filter_over_map {α β : Type} (f : α → β) (p : β → Bool) :
    ∀ l : List α, (l.map f).filter p = (l.filter (fun a => p (f a))).map f := by
  intro l
  induction l with
  | nil => rfl
  | cons a l ih =>
      by_cases h : p (f a) = true
      · simp [List.filter_cons, h, ih]
      · simp only [Bool.not_eq_true] at h
        simp [List.filter_cons, h, ih]

theorem blank_row_allNa (cs : List Cell) : rowAllNa (cs.map blankToNa) = rowMissing cs := by
  induction cs with
  | nil => rfl
  | cons c cs ih =>
      simp only [rowAllNa, rowMissing, List.map_cons, List.all_cons] at ih ⊢
      rw [ih]
      cases c with
      | num q => simp [blankToNa]
      | na => simp [blankToNa]
      | str s =>
          by_cases h : s = " "
          · subst h; simp [blankToNa]
          · simp [blankToNa, h]

theorem rebuildRows_fst (nc : List (List Cell)) :
    ∀ (p : Nat) (rs : List Row), (rebuildRows nc p rs).map Prod.fst = rs.map Prod.fst := by
  intro p rs
  induction rs generalizing p with
  | nil => rfl
  | cons r rs ih => simp [rebuildRows, ih]

theorem mapTable_fst (f : Cell → Cell) (t : Table) :
    (mapTable f t).rows.map Prod.fst = t.rows.map Prod.fst := by
  simp [mapTable]

theorem process_values_fst (t : Table) :
    (process_values t).rows.map Prod.fst =
      (t.rows.filter (fun r => !(rowMissing r.2))).map Prod.fst := by
  show (convert_to_numbers _).rows.map Prod.fst = _
  rw [convert_to_numbers]
  rw [rebuildRows_fst, mapTable_fst]
  show ((dropna (mapTable blankToNa t)).rows).map Prod.fst = _
  rw [dropna, mapTable]
  simp only
  rw [filter_over_map]
  simp only [List.map_map]
  have : ∀ r : Row, (!(rowAllNa ((fun r : Row => (r.1, r.2.map blankToNa)) r).2)) =
      (!(rowMissing r.2)) := by
    intro r; rw [blank_row_allNa]
  rw [List.filter_congr (fun r _ => this r)]
  rfl

theorem process_labels_fst (t : Table) :
    (process_labels t).rows.map Prod.fst =
      (t.rows.filter (fun r => !(rowMissing r.2))).map Prod.fst := by
  show (mapTable _ (dropna (mapTable blankToNa t))).rows.map Prod.fst = _
  rw [mapTable_fst, dropna, mapTable]
  simp only
  rw [filter_over_map]
  simp only [List.map_map]
  have : ∀ r : Row, (!(rowAllNa ((fun r : Row => (r.1, r.2.map blankToNa)) r).2)) =
      (!(rowMissing r.2)) := by
    intro r; rw [blank_row_allNa]
  rw [List.filter_congr (fun r _ => this r)]
  rfl

theorem filter_fst_eq :
    ∀ (xs ys : List Row),
      xs.map Prod.fst = ys.map Prod.fst →
      xs.map (fun r => rowMissing r.2) = ys.map (fun r => rowMissing r.2) →
      (xs.filter (fun r => !(rowMissing r.2))).map Prod.fst =
        (ys.filter (fun r => !(rowMissing r.2))).map Prod.fst := by
  intro xs
  induction xs with
  | nil =>
      intro ys h _
      cases ys with
      | nil => rfl
      | cons y ys => simp at h
  | cons x xs ih =>
      intro ys h hm
      cases ys with
      | nil => simp at h
      | cons y ys =>
          simp only [List.map_cons, List.cons.injEq] at h hm
          by_cases hx : rowMissing x.2 = true
          · simp [List.filter_cons, hx, hm.1 ▸ hx, ih ys h.2 hm.2]
          · simp only [Bool.not_eq_true] at hx
            simp [List.filter_cons, hx, hm.1 ▸ hx, ih ys h.2 hm.2, h.1]

/-- C1 amended: for every pair of input tables with the same column
identifiers, the same row labels, and the same all-missing rows (a row is
missing when each of its cells is the one-space blank or NaN — the alignment
PSPP's two row-aligned exports guarantee), the cleaned values and labels
tables have the same column identifiers, the same row count, and the same row
index sequence.  (c1_counterexample shows the unconditional claim fails.) -/
theorem c1_cleaning_alignment (tv tl : Table)
    (hcols : tv.cols = tl.cols)
    (hfst : tv.rows.map Prod.fst = tl.rows.map Prod.fst)
    (hmiss : tv.rows.map (fun r => rowMissing r.2) = tl.rows.map (fun r => rowMissing r.2)) :
    (process_values tv).cols = (process_labels tl).cols ∧
    (process_values tv).rows.length = (process_labels tl).rows.length ∧
    (process_values tv).rows.map Prod.fst = (process_labels tl).rows.map Prod.fst := by
  have hf : (process_values tv).rows.map Prod.fst = (process_labels tl).rows.map Prod.fst := by
    rw [process_values_fst, process_labels_fst]
    exact filter_fst_eq tv.rows tl.rows hfst hmiss
  refine ⟨?_, ?_, hf⟩
  · show tv.cols = tl.cols
    exact hcols
  · have := congrArg List.length hf
    simpa using this

def c1wv : Table := { cols := ["A"], rows := [(0, [Cell.num 1]), (1, [Cell.str " "])] }

def c1wl : Table := { cols := ["A"], rows := [(0, [Cell.str "x"]), (1, [Cell.str " "])] }

/-- Witness for c1_cleaning_alignment at a concrete aligned pair. -/
theorem c1_witness :
    (c1wv.cols = c1wl.cols ∧
     c1wv.rows.map Prod.fst = c1wl.rows.map Prod.fst ∧
     c1wv.rows.map (fun r => rowMissing r.2) = c1wl.rows.map (fun r => rowMissing r.2)) ∧
    (process_values c1wv).rows.map Prod.fst = (process_labels c1wl).rows.map Prod.fst :=
  ⟨⟨by with_unfolding_all decide, by with_unfolding_all decide, by with_unfolding_all decide⟩,
   (c1_cleaning_alignment c1wv c1wl (by with_unfolding_all decide)
      (by with_unfolding_all decide) (by with_unfolding_all decide)).2.2⟩

/-! ## C2: the amended total-weight invariant -/

/-- C2 amended: totalWeight equals the sum of the Weights column after
construction and after every setWeights call with a non-empty spec; dropRows
(and setWeights with an empty spec) leaves the stored totalWeight untouched,
so after a row-removing dropRows it is stale until the next reweighting
(c2_counterexample).  The claim that it is recomputed whenever rows change is
therefore false. -/
theorem c2_total_weight :
    (∀ dv dl txt s, Survey.init dv dl txt = Except.ok s →
        calculate_total_weight s = Except.ok s.total_weight) ∧
    (∀ s w s2, w ≠ [] → set_weights s w = Except.ok s2 →
        calculate_total_weight s2 = Except.ok s2.total_weight) ∧
    (∀ s ex s2, drop_rows s ex = Except.ok s2 → s2.total_weight = s.total_weight) := by
  refine ⟨?_, ?_, ?_⟩
  · intro dv dl txt s h
    simp only [Survey.init] at h
    split at h
    · split at h
      · exact absurd h (by simp)
      · split at h
        · exact absurd h (by simp)
        · split at h
          · cases h
            simp_all [calculate_total_weight]
          · exact absurd h (by simp)
    · exact absurd h (by simp)
  · intro s w s2 hw h
    simp only [set_weights] at h
    split at h
    · simp_all
    · split at h
      · exact absurd h (by simp)
      · split at h
        · exact absurd h (by simp)
        · split at h
          · exact absurd h (by simp)
          · cases h
            simp_all [calculate_total_weight]
  · intro s ex s2 h
    simp only [drop_rows] at h
    split at h
    · cases h; rfl
    · split at h
      · exact absurd h (by simp)
      · split at h
        · exact absurd h (by simp)
        · split at h
          · exact absurd h (by simp)
          · cases h; rfl

def c2s : Survey :=
  { data_values := { cols := ["A", "Weights"],
                     rows := [(0, [Cell.num 1, Cell.num 1]), (1, [Cell.num 2, Cell.num 1])] }
    data_labels := { cols := ["A", "Weights"],
                     rows := [(0, [Cell.str "x", Cell.num 1]), (1, [Cell.str "y", Cell.num 1])] }
    data_variables := ""
    variable_label_mapping := [("Weights", "Weights")]
    total_weight := 2
    value_label_mapping := [("A", [(Cell.num 1, Cell.str "x"), (Cell.num 2, Cell.str "y")]),
                            ("Weights", [(Cell.num 1, Cell.num 1)])]
    num_rows := 2
    num_cols := 2 }

/-- Witness for c2_total_weight: the constructed two-row survey satisfies the
construction conjunct. -/
theorem c2_witness :
    Survey.init c2tv c2tl "" = Except.ok c2s ∧
    calculate_total_weight c2s = Except.ok c2s.total_weight :=
  ⟨by with_unfolding_all decide,
   c2_total_weight.1 c2tv c2tl "" c2s (by with_unfolding_all decide)⟩


/-! ## C6: the amended continuation behaviour -/

theorem plAux_cons (l : List Char) (ls : List (List Char)) (coding : List (String × String))
    (code description : String) :
    plAux (l :: ls) coding code description =
      if skipLine (trimChars l) then plAux ls coding code description
      else if isCodeLine (trimChars l) then
        plAux ls (updateAssoc coding (codeOf (trimChars l)) (descOf (trimChars l)))
          (codeOf (trimChars l)) (descOf (trimChars l))
      else
        plAux ls (updateAssoc coding code (description ++ " " ++ String.mk (trimChars l)))
          code (description ++ " " ++ String.mk (trimChars l)) := rfl

theorem findVal_map_update {β : Type} (k k2 : String) (v : β) :
    ∀ m : List (String × β), (findVal k m).isSome →
      (findVal k (m.map (fun p => if p.1 = k2 then (k2, v) else p))).isSome := by
  intro m
  induction m with
  | nil => simp [findVal]
  | cons p ps ih =>
      intro h
      simp only [List.map_cons]
      by_cases hk2 : p.1 = k2
      · rw [if_pos hk2]
        by_cases hk : p.1 = k
        · have e : k2 = k := hk2.symm.trans hk
          simp only [findVal]
          rw [if_pos e]
          simp
        · have e : ¬(k2 = k) := fun e => hk (hk2.trans e)
          simp only [findVal] at h ⊢
          rw [if_neg e]
          rw [if_neg hk] at h
          exact ih h
      · rw [if_neg hk2]
        by_cases hk : p.1 = k
        · simp only [findVal]
          rw [if_pos hk]
          simp
        · simp only [findVal] at h ⊢
          rw [if_neg hk]
          rw [if_neg hk] at h
          exact ih h

theorem findVal_append_left {β : Type} (k : String) (l2 : List (String × β)) :
    ∀ m : List (String × β), (findVal k m).isSome → findVal k (m ++ l2) = findVal k m := by
  intro m
  induction m with
  | nil => simp [findVal]
  | cons p ps ih =>
      intro h
      by_cases hk : p.1 = k
      · simp [findVal, hk]
      · rw [findVal, if_neg hk] at h
        simp only [List.cons_append, findVal, if_neg hk]
        exact ih h

theorem findVal_updateAssoc_isSome {β : Type} (m : List (String × β)) (k k2 : String) (v : β)
    (h : (findVal k m).isSome) : (findVal k (updateAssoc m k2 v)).isSome := by
  unfold updateAssoc
  split
  · exact findVal_map_update k k2 v m h
  · rw [findVal_append_left k [(k2, v)] m h]
    exact h

theorem plAux_keeps_key :
    ∀ (ls : List (List Char)) (coding : List (String × String)) (code description : String),
      (findVal "foo" coding).isSome → (findVal "foo" (plAux ls coding code description)).isSome := by
  intro ls
  induction ls with
  | nil => intro coding code description h; exact h
  | cons l ls ih =>
      intro coding code description h
      rw [plAux_cons]
      split
      · exact ih coding code description h
      · split
        · exact ih _ _ _ (findVal_updateAssoc_isSome coding "foo" _ _ h)
        · exact ih _ _ _ (findVal_updateAssoc_isSome coding "foo" _ _ h)

theorem plAux_skip_prefix :
    ∀ (pre ls : List (List Char)) (coding : List (String × String)) (code description : String),
      (∀ p ∈ pre, skipLine (trimChars p) = true) →
      plAux (pre ++ ls) coding code description = plAux ls coding code description := by
  intro pre
  induction pre with
  | nil => intro ls coding code description _; rfl
  | cons p ps ih =>
      intro ls coding code description hpre
      have hp : skipLine (trimChars p) = true := hpre p (by simp)
      rw [List.cons_append, plAux_cons, if_pos hp]
      exact ih ls coding code description (fun q hq => hpre q (by simp [hq]))

/-- C6 amended: on every variable-description text in which a continuation
line (not skipped, trailing eight trimmed characters not all digits) occurs
before any question-entry code line, parse does NOT fail: it appends the
continuation to the placeholder initialization code "foo" / description
"bar" and returns an ordinary mapping that contains the key "foo"
(c6_counterexample shows the resulting entry).  The claimed fatal parse
error does not exist in the code. -/
theorem c6_continuation_no_error (text : String) (pre rest : List (List Char))
    (l : List Char)
    (hsplit : splitNl text.toList = pre ++ l :: rest)
    (hpre : ∀ p ∈ pre, skipLine (trimChars p) = true)
    (hl : skipLine (trimChars l) = false)
    (hlc : isCodeLine (trimChars l) = false) :
    (findVal "foo" (parse_variable_label_mapping text)).isSome := by
  unfold parse_variable_label_mapping
  rw [hsplit, plAux_skip_prefix pre (l :: rest) [] "foo" "bar" hpre]
  rw [plAux_cons, if_neg (by simp [hl]), if_neg (by simp [hlc])]
  refine plAux_keeps_key rest _ _ _ ?_
  have : findVal "foo" (updateAssoc ([] : List (String × String)) "foo"
      ("bar" ++ " " ++ String.mk (trimChars l))) =
      some ("bar" ++ " " ++ String.mk (trimChars l)) := by
    simp [updateAssoc, findVal]
  rw [this]
  rfl

/-- Witness for c6_continuation_no_error on the one-line text "hello". -/
theorem c6_witness :
    (splitNl "hello".toList = [] ++ ['h', 'e', 'l', 'l', 'o'] :: [] ∧
     skipLine (trimChars ['h', 'e', 'l', 'l', 'o']) = false ∧
     isCodeLine (trimChars ['h', 'e', 'l', 'l', 'o']) = false) ∧
    (findVal "foo" (parse_variable_label_mapping "hello")).isSome :=
  ⟨⟨by with_unfolding_all decide, by with_unfolding_all decide, by with_unfolding_all decide⟩,
   c6_continuation_no_error "hello" [] [] ['h', 'e', 'l', 'l', 'o']
     (by with_unfolding_all decide) (fun p hp => absurd hp (by simp))
     (by with_unfolding_all decide) (by with_unfolding_all decide)⟩

/-! ## C4: the amended one-hot characterization -/

/-- Position of a cell in a list (first occurrence). -/
def posOf (c : Cell) : List Cell → Nat
  | [] => 0
  | v :: vs => if v = c then 0 else posOf c vs + 1

/-- Pointwise effect of the enumerate/replace loop on one original cell. -/
def targetMap (ec : Cell) : Nat → List Cell → Cell → Cell
  | _, [], c => c
  | i, v :: vs, c =>
      if v = ec then targetMap ec (i + 1) vs c
      else if c = v then Cell.num (i : ℚ) else targetMap ec (i + 1) vs c

theorem listMapCongr {α β : Type} (f g : α → β) :
    ∀ l : List α, (∀ a ∈ l, f a = g a) → l.map f = l.map g := by
  intro l
  induction l with
  | nil => intro _; rfl
  | cons a l ih =>
      intro h
      simp only [List.map_cons]
      rw [h a (by simp), ih (fun b hb => h b (by simp [hb]))]

theorem targetMap_num (ec : Cell) (q0 : ℚ) (_hec : ec = Cell.num q0) :
    ∀ (vs : List Cell) (i : Nat) (q : ℚ),
      (∀ v ∈ vs, (∃ s, v = Cell.str s) ∨ v = ec) →
      targetMap ec i vs (Cell.num q) = Cell.num q := by
  intro vs
  induction vs with
  | nil => intro i q _; rfl
  | cons v vs ih =>
      intro i q hvs
      show (if v = ec then targetMap ec (i + 1) vs (Cell.num q)
            else if (Cell.num q) = v then Cell.num (i : ℚ)
            else targetMap ec (i + 1) vs (Cell.num q)) = Cell.num q
      by_cases hv : v = ec
      · rw [if_pos hv]
        exact ih (i + 1) q (fun w hw => hvs w (by simp [hw]))
      · rcases hvs v (by simp) with ⟨s, rfl⟩ | h2
        · rw [if_neg hv, if_neg (by simp)]
          exact ih (i + 1) q (fun w hw => hvs w (by simp [hw]))
        · exact absurd h2 hv

theorem ohAux_map (ec : Cell) (q0 : ℚ) (hec : ec = Cell.num q0) :
    ∀ (vs : List Cell) (i : Nat) (col : List Cell),
      (∀ v ∈ vs, (∃ s, v = Cell.str s) ∨ v = ec) →
      ohAux ec i vs col = col.map (targetMap ec i vs) := by
  intro vs
  induction vs with
  | nil =>
      intro i col _
      show col = col.map (targetMap ec i [])
      have : targetMap ec i [] = fun c => c := funext (fun c => rfl)
      rw [this, List.map_id']
  | cons v vs ih =>
      intro i col hvs
      show ohAux ec (i + 1) vs
          (if v = ec then col else col.map (fun c => if c = v then Cell.num (i : ℚ) else c)) =
        col.map (targetMap ec i (v :: vs))
      by_cases hv : v = ec
      · rw [if_pos hv, ih (i + 1) col (fun w hw => hvs w (by simp [hw]))]
        refine listMapCongr _ _ col (fun c _ => ?_)
        show targetMap ec (i + 1) vs c =
          (if v = ec then targetMap ec (i + 1) vs c
           else if c = v then Cell.num (i : ℚ) else targetMap ec (i + 1) vs c)
        rw [if_pos hv]
      · rw [if_neg hv, ih (i + 1) _ (fun w hw => hvs w (by simp [hw])), List.map_map]
        refine listMapCongr _ _ col (fun c _ => ?_)
        show targetMap ec (i + 1) vs (if c = v then Cell.num (i : ℚ) else c) =
          (if v = ec then targetMap ec (i + 1) vs c
           else if c = v then Cell.num (i : ℚ) else targetMap ec (i + 1) vs c)
        rw [if_neg hv]
        by_cases hc : c = v
        · rw [if_pos hc, if_pos hc]
          exact targetMap_num ec q0 hec vs (i + 1) (i : ℚ)
            (fun w hw => hvs w (by simp [hw]))
        · rw [if_neg hc, if_neg hc]

theorem targetMap_pos (ec : Cell) :
    ∀ (vs : List Cell) (i : Nat) (c : Cell), c ∈ vs → c ≠ ec →
      targetMap ec i vs c = Cell.num (((i + posOf c vs : Nat) : ℚ)) := by
  intro vs
  induction vs with
  | nil => intro i c hc _; exact absurd hc (by simp)
  | cons v vs ih =>
      intro i c hc hcec
      show (if v = ec then targetMap ec (i + 1) vs c
            else if c = v then Cell.num (i : ℚ)
            else targetMap ec (i + 1) vs c) = Cell.num (((i + posOf c (v :: vs) : Nat) : ℚ))
      by_cases hv : v = ec
      · have hcv : ¬(v = c) := fun e => hcec (e ▸ hv.symm ▸ rfl)
        rw [if_pos hv]
        have hc2 : c ∈ vs := by
          rcases List.mem_cons.mp hc with e | h
          · exact absurd (e ▸ rfl : v = c).symm (fun e2 => hcv e2.symm)
          · exact h
        rw [ih (i + 1) c hc2 hcec]
        show Cell.num _ = Cell.num _
        rw [posOf, if_neg hcv]
        norm_num
        ring
      · rw [if_neg hv]
        by_cases hcv : c = v
        · rw [if_pos hcv]
          show Cell.num _ = Cell.num _
          rw [posOf, if_pos hcv.symm]
          norm_num
        · rw [if_neg hcv]
          have hc2 : c ∈ vs := by
            rcases List.mem_cons.mp hc with e | h
            · exact absurd e hcv
            · exact h
          rw [ih (i + 1) c hc2 hcec]
          show Cell.num _ = Cell.num _
          rw [posOf, if_neg (fun e : v = c => hcv e.symm)]
          norm_num
          ring

theorem mem_firstDistinct_aux (c : Cell) :
    ∀ (col : List Cell) (acc : List Cell),
      (c ∈ col.foldl (fun acc c => if c ∈ acc then acc else acc ++ [c]) acc) ↔
        (c ∈ acc ∨ c ∈ col) := by
  intro col
  induction col with
  | nil => intro acc; simp
  | cons a col ih =>
      intro acc
      simp only [List.foldl_cons]
      rw [ih]
      by_cases ha : a ∈ acc
      · rw [if_pos ha]
        constructor
        · rintro (h | h)
          · exact Or.inl h
          · simp [h]
        · rintro (h | h)
          · exact Or.inl h
          · rcases List.mem_cons.mp h with rfl | h2
            · exact Or.inl ha
            · exact Or.inr h2
      · rw [if_neg ha]
        simp only [List.mem_append, List.mem_singleton, List.mem_cons]
        tauto

theorem mem_uniqueSorted (c : Cell) (col : List Cell) :
    c ∈ uniqueSorted col ↔ c ∈ col := by
  unfold uniqueSorted
  rw [(List.perm_insertionSort cellLEr (firstDistinct col)).mem_iff]
  unfold firstDistinct
  rw [mem_firstDistinct_aux]
  simp

/-- C4 amended: for a values column whose cells are strings or the numeric
empty-code sentinel 6101 (the shape a non-coercible column has after the
blank/NaN replacement), one-hot encoding enumerates the column's distinct
values in np.unique's ascending SORTED order — not in order of first
appearance (c4_counterexample) — assigns each position its 0-based index
(the sentinel, when present, also consumes an index), replaces every
occurrence of a non-sentinel value by the index of that value in the sorted
distinct list, and leaves sentinel cells unchanged; the function is
deterministic, hence stable across repeated encode calls on the same input. -/
theorem c4_one_hot_sorted (column : List Cell)
    (hcells : ∀ c ∈ column, (∃ s, c = Cell.str s) ∨ c = defaultEmptyCode) :
    build_one_hot_column column =
      column.map (fun c => if c = defaultEmptyCode then c
                           else Cell.num ((posOf c (uniqueSorted column) : Nat) : ℚ)) := by
  have hU : ∀ v ∈ uniqueSorted column, (∃ s, v = Cell.str s) ∨ v = defaultEmptyCode :=
    fun v hv => hcells v ((mem_uniqueSorted v column).mp hv)
  unfold build_one_hot_column
  rw [ohAux_map defaultEmptyCode 6101 rfl (uniqueSorted column) 0 column hU]
  refine listMapCongr _ _ column (fun c hc => ?_)
  by_cases hce : c = defaultEmptyCode
  · rw [if_pos hce, hce]
    exact targetMap_num defaultEmptyCode 6101 rfl (uniqueSorted column) 0 6101 hU
  · rw [if_neg hce]
    rw [targetMap_pos defaultEmptyCode (uniqueSorted column) 0 c
      ((mem_uniqueSorted c column).mpr hc) hce]
    norm_num

/-- Witness for c4_one_hot_sorted on the column ["C", "A", sentinel]. -/
theorem c4_witness :
    build_one_hot_column [Cell.str "C", Cell.str "A", defaultEmptyCode] =
      [Cell.str "C", Cell.str "A", defaultEmptyCode].map
        (fun c => if c = defaultEmptyCode then c
                  else Cell.num
                    ((posOf c (uniqueSorted [Cell.str "C", Cell.str "A", defaultEmptyCode]) :
                       Nat) : ℚ)) :=
  c4_one_hot_sorted [Cell.str "C", Cell.str "A", defaultEmptyCode]
    (by
      intro c hc
      simp only [List.mem_cons, List.not_mem_nil, or_false] at hc
      rcases hc with rfl | rfl | rfl
      · exact Or.inl ⟨"C", rfl⟩
      · exact Or.inl ⟨"A", rfl⟩
      · exact Or.inr rfl)

/-! ## C10: subset resets every weight to 1.0 -/

theorem rebuildRows_cells_length (nc : List (List Cell)) :
    ∀ (p : Nat) (rs : List Row) (r : Row), r ∈ rebuildRows nc p rs → r.2.length = nc.length := by
  intro p rs
  induction rs generalizing p with
  | nil => intro r hr; simp [rebuildRows] at hr
  | cons x rs ih =>
      intro r hr
      simp only [rebuildRows, List.mem_cons] at hr
      rcases hr with rfl | hr
      · simp
      · exact ih (p + 1) r hr

theorem process_values_rect (t : Table) :
    ∀ r ∈ (process_values t).rows, r.2.length = (process_values t).cols.length := by
  intro r hr
  have h1 : (process_values t).cols = t.cols := rfl
  have h2 : r.2.length =
      ((List.range t.cols.length).map
        (fun i => processColumn (colAt (mapTable (naTo defaultEmptyCode)
          (dropna (mapTable blankToNa t))) i))).length :=
    rebuildRows_cells_length _ 0 _ r hr
  rw [h1, h2]
  simp

theorem getD_set_self :
    ∀ (l : List Cell) (j : Nat) (c : Cell), j < l.length → (l.set j c).getD j Cell.na = c := by
  intro l
  induction l with
  | nil => intro j c h; simp at h
  | cons a l ih =>
      intro j c h
      cases j with
      | zero => rfl
      | succ j =>
          simp only [List.set_cons_succ, List.getD_cons_succ]
          exact ih j c (by simpa using h)

theorem getD_append_len :
    ∀ (l : List Cell) (c : Cell), (l ++ [c]).getD l.length Cell.na = c := by
  intro l
  induction l with
  | nil => intro c; rfl
  | cons a l ih => intro c; simp only [List.cons_append, List.length_cons, List.getD_cons_succ]; exact ih c

theorem findColIdx_lt :
    ∀ (cols : List String) (name : String) (j : Nat),
      findColIdx cols name = some j → j < cols.length := by
  intro cols
  induction cols with
  | nil => intro name j h; simp [findColIdx] at h
  | cons c cs ih =>
      intro name j h
      unfold findColIdx at h
      split at h
      · cases h; simp
      · cases hj : findColIdx cs name with
        | none => rw [hj] at h; simp at h
        | some j2 =>
            rw [hj] at h
            simp only [Option.map_some'] at h
            cases h
            have := ih name j2 hj
            exact Nat.succ_lt_succ this

theorem findColIdx_append_none :
    ∀ (cols : List String) (name : String), findColIdx cols name = none →
      findColIdx (cols ++ [name]) name = some cols.length := by
  intro cols
  induction cols with
  | nil => intro name _; simp [findColIdx]
  | cons c cs ih =>
      intro name h
      unfold findColIdx at h
      split at h
      · simp at h
      · cases hj : findColIdx cs name with
        | none =>
            simp only [List.cons_append]
            unfold findColIdx
            rename_i hne
            rw [if_neg hne, ih name hj]
            rfl
        | some j2 => rw [hj] at h; simp at h

theorem setColumn_zip_set_col (j : Nat) :
    ∀ (rs : List Row) (cs : List Cell), cs.length = rs.length →
      (∀ r ∈ rs, j < r.2.length) →
      ((rs.zip cs).map (fun rc => (rc.1.1, rc.1.2.set j rc.2))).map
          (fun r => r.2.getD j Cell.na) = cs := by
  intro rs
  induction rs with
  | nil =>
      intro cs h _
      cases cs with
      | nil => rfl
      | cons c cs => simp at h
  | cons r rs ih =>
      intro cs h hj
      cases cs with
      | nil => simp at h
      | cons c cs =>
          simp only [List.zip_cons_cons, List.map_cons]
          rw [getD_set_self r.2 j c (hj r (by simp))]
          rw [ih cs (by simpa using h) (fun r2 hr2 => hj r2 (by simp [hr2]))]

theorem setColumn_zip_append_col (n : Nat) :
    ∀ (rs : List Row) (cs : List Cell), cs.length = rs.length →
      (∀ r ∈ rs, r.2.length = n) →
      ((rs.zip cs).map (fun rc => (rc.1.1, rc.1.2 ++ [rc.2]))).map
          (fun r => r.2.getD n Cell.na) = cs := by
  intro rs
  induction rs with
  | nil =>
      intro cs h _
      cases cs with
      | nil => rfl
      | cons c cs => simp at h
  | cons r rs ih =>
      intro cs h hn
      cases cs with
      | nil => simp at h
      | cons c cs =>
          simp only [List.zip_cons_cons, List.map_cons]
          have e : r.2.length = n := hn r (by simp)
          rw [← e, getD_append_len r.2 c, e]
          rw [ih cs (by simpa using h) (fun r2 hr2 => hn r2 (by simp [hr2]))]

theorem getCol_setColumn_self (t : Table) (name : String) (cells : List Cell)
    (hrect : ∀ r ∈ t.rows, r.2.length = t.cols.length)
    (hlen : cells.length = t.rows.length) :
    getColByName (setColumn t name cells) name = Except.ok cells := by
  unfold setColumn
  cases h : findColIdx t.cols name with
  | some j =>
      unfold getColByName
      simp only [h]
      rw [setColumn_zip_set_col j t.rows cells hlen
        (fun r hr => (hrect r hr) ▸ findColIdx_lt t.cols name j h)]
  | none =>
      unfold getColByName
      simp only [findColIdx_append_none t.cols name h]
      rw [setColumn_zip_append_col t.cols.length t.rows cells hlen hrect]

theorem setColumn_rows_length (t : Table) (name : String) (cells : List Cell)
    (hlen : cells.length = t.rows.length) :
    (setColumn t name cells).rows.length = t.rows.length := by
  unfold setColumn
  cases h : findColIdx t.cols name <;> simp [hlen, Nat.min_self]

theorem init_weights_ones (dv dl : Table) (txt : String) (s : Survey)
    (h : Survey.init dv dl txt = Except.ok s) :
    getColByName s.data_values "Weights" =
      Except.ok (List.replicate s.data_values.rows.length (Cell.num 1)) := by
  simp only [Survey.init] at h
  split at h
  · split at h
    · exact absurd h (by simp)
    · split at h
      · exact absurd h (by simp)
      · split at h
        · cases h
          have hlen : (onesColumn (process_values dv).rows.length).length =
              (process_values dv).rows.length := by
            simp [onesColumn]
          have hget := getCol_setColumn_self (process_values dv) "Weights"
            (onesColumn (process_values dv).rows.length) (process_values_rect dv) hlen
          have hrows := setColumn_rows_length (process_values dv) "Weights"
            (onesColumn (process_values dv).rows.length) hlen
          rw [hget, hrows]
          rfl
        · exact absurd h (by simp)
  · exact absurd h (by simp)

/-- C10: every dataset returned by subset has every row weight equal to 1.0:
the subset constructor re-runs Survey.init, whose add_weights_column step
overwrites the Weights column of the fresh values table with ones, whatever
weights the parent carried; callers must re-apply setWeights on the child. -/
theorem c10_subset_weights_reset (s : Survey) (filter : List (String × Cell)) (child : Survey)
    (h : get_subset_survey s filter = Except.ok child) :
    getColByName child.data_values "Weights" =
      Except.ok (List.replicate child.data_values.rows.length (Cell.num 1)) := by
  unfold get_subset_survey at h
  split at h
  · exact absurd h (by simp)
  · split at h
    · exact absurd h (by simp)
    · split at h
      · exact absurd h (by simp)
      · exact init_weights_ones _ _ _ child h

def c10parent : Survey :=
  { data_values := { cols := ["COUNTRY", "Weights"],
                     rows := [(0, [Cell.num 9, Cell.num 1]),
                              (1, [Cell.num 4, Cell.num 1]),
                              (2, [Cell.num 9, Cell.num 1])] }
    data_labels := { cols := ["COUNTRY", "Weights"],
                     rows := [(0, [Cell.str "USA", Cell.num 1]),
                              (1, [Cell.str "DE", Cell.num 1]),
                              (2, [Cell.str "USA", Cell.num 1])] }
    data_variables := ""
    variable_label_mapping := [("Weights", "Weights")]
    total_weight := 3
    value_label_mapping := [("COUNTRY", [(Cell.num 9, Cell.str "USA"), (Cell.num 4, Cell.str "DE")]),
                            ("Weights", [(Cell.num 1, Cell.num 1)])]
    num_rows := 3
    num_cols := 2 }

def c10child : Survey :=
  { data_values := { cols := ["COUNTRY", "Weights"],
                     rows := [(0, [Cell.num 9, Cell.num 1]), (2, [Cell.num 9, Cell.num 1])] }
    data_labels := { cols := ["COUNTRY", "Weights"],
                     rows := [(0, [Cell.str "USA", Cell.num 1]), (2, [Cell.str "USA", Cell.num 1])] }
    data_variables := ""
    variable_label_mapping := [("Weights", "Weights")]
    total_weight := 2
    value_label_mapping := [("COUNTRY", [(Cell.num 9, Cell.str "USA")]),
                            ("Weights", [(Cell.num 1, Cell.num 1)])]
    num_rows := 2
    num_cols := 2 }

/-- Witness for c10_subset_weights_reset on the COUNTRY = 9 subset. -/
theorem c10_witness :
    get_subset_survey c10parent [("COUNTRY", Cell.num 9)] = Except.ok c10child ∧
    getColByName c10child.data_values "Weights" =
      Except.ok (List.replicate c10child.data_values.rows.length (Cell.num 1)) :=
  ⟨by with_unfolding_all decide,
   c10_subset_weights_reset c10parent [("COUNTRY", Cell.num 9)] c10child
     (by with_unfolding_all decide)⟩

/-! ## C7: the counts sum to the row count / total weight -/

theorem getColByName_length (t : Table) (name : String) (c : List Cell)
    (h : getColByName t name = Except.ok c) : c.length = t.rows.length := by
  unfold getColByName at h
  split at h
  · exact absurd h (by simp)
  · cases h
    simp

theorem listMapSumAdd {α β : Type} [AddCommMonoid β] (f g : α → β) :
    ∀ l : List α, (l.map (fun x => f x + g x)).sum = (l.map f).sum + (l.map g).sum := by
  intro l
  induction l with
  | nil => simp
  | cons a l ih =>
      simp only [List.map_cons, List.sum_cons, ih]
      rw [add_add_add_comm]

theorem sumIteZero {β : Type} [AddCommMonoid β] (c : Cell) (q : β) :
    ∀ keys : List Cell, c ∉ keys →
      (keys.map (fun v => if c = v then q else 0)).sum = 0 := by
  intro keys
  induction keys with
  | nil => intro _; rfl
  | cons k ks ih =>
      intro h
      simp only [List.map_cons, List.sum_cons]
      rw [if_neg (fun e => h (by rw [e]; exact List.mem_cons_self k ks)),
        ih (fun hm => h (List.mem_cons_of_mem k hm))]
      simp

theorem sumIteSingle {β : Type} [AddCommMonoid β] (c : Cell) (q : β) :
    ∀ keys : List Cell, keys.Nodup → c ∈ keys →
      (keys.map (fun v => if c = v then q else 0)).sum = q := by
  intro keys
  induction keys with
  | nil => intro _ h; exact absurd h (by simp)
  | cons k ks ih =>
      intro hnd hc
      simp only [List.map_cons, List.sum_cons]
      rcases List.mem_cons.mp hc with rfl | hm
      · rw [if_pos rfl, sumIteZero c q ks (List.Nodup.not_mem hnd)]
        simp
      · have hck : ¬(c = k) := fun e => (List.Nodup.not_mem hnd) (e ▸ hm)
        rw [if_neg hck, ih (List.Nodup.of_cons hnd) hm]
        simp

theorem partitionSum {α β : Type} [AddCommMonoid β] (keys : List Cell) (k : α → Cell)
    (f : α → β) (hnd : keys.Nodup) :
    ∀ xs : List α, (∀ x ∈ xs, k x ∈ keys) →
      (keys.map (fun v => ((xs.filter (fun x => decide (k x = v))).map f).sum)).sum =
        (xs.map f).sum := by
  intro xs
  induction xs with
  | nil =>
      intro _
      have : ∀ v ∈ keys, ((([] : List α).filter (fun x => decide (k x = v))).map f).sum
          = (0 : β) := by intro v _; rfl
      rw [listMapCongr _ (fun _ => (0 : β)) keys this]
      simp
  | cons x xs ih =>
      intro hcov
      have hpoint : ∀ v ∈ keys,
          (((x :: xs).filter (fun y => decide (k y = v))).map f).sum =
            (if k x = v then f x else 0) +
              ((xs.filter (fun y => decide (k y = v))).map f).sum := by
        intro v _
        by_cases h : k x = v
        · simp [List.filter_cons, h]
        · simp [List.filter_cons, h]
      rw [listMapCongr _ _ keys hpoint, listMapSumAdd]
      rw [sumIteSingle (k x) (f x) keys hnd (hcov x (by simp))]
      rw [ih (fun y hy => hcov y (by simp [hy]))]
      simp

theorem lenOneSum : ∀ l : List Cell, (l.map (fun _ => (1 : Int))).sum = (l.length : Int) := by
  intro l
  induction l with
  | nil => rfl
  | cons a l ih => simp [ih]; omega

theorem roundErr (q : ℚ) : |((pyRound q : Int) : ℚ) - q| ≤ 1 / 2 := by
  unfold pyRound
  split
  · have h1 := Int.floor_le (-q + 1 / 2)
    have h2 := Int.lt_floor_add_one (-q + 1 / 2)
    rw [abs_le]
    constructor <;> push_cast at * <;> linarith
  · have h1 := Int.floor_le (q + 1 / 2)
    have h2 := Int.lt_floor_add_one (q + 1 / 2)
    rw [abs_le]
    constructor <;> push_cast at * <;> linarith

theorem sumRoundErr :
    ∀ qs : List ℚ, |(((qs.map pyRound).sum : Int) : ℚ) - qs.sum| ≤ (qs.length : ℚ) / 2 := by
  intro qs
  induction qs with
  | nil => simp
  | cons q qs ih =>
      simp only [List.map_cons, List.sum_cons, List.length_cons]
      have e : (((pyRound q + (qs.map pyRound).sum : Int) : ℚ)) - (q + qs.sum) =
          (((pyRound q : Int) : ℚ) - q) +
            ((((qs.map pyRound).sum : Int) : ℚ) - qs.sum) := by
        push_cast
        ring
      rw [e]
      have htri := abs_add (((pyRound q : Int) : ℚ) - q)
        ((((qs.map pyRound).sum : Int) : ℚ) - qs.sum)
      have hr := roundErr q
      have : ((qs.length + 1 : ℕ) : ℚ) / 2 = (qs.length : ℚ) / 2 + 1 / 2 := by
        push_cast
        ring
      rw [this]
      linarith

theorem sortPairs_snd_sum (l : List (Cell × Int)) :
    ((sortPairs l).map Prod.snd).sum = (l.map Prod.snd).sum :=
  ((List.perm_insertionSort pairLEr l).map Prod.snd).sum_eq

theorem zip_snd_sum :
    ∀ v w : List Cell, v.length = w.length →
      ((v.zip w).map (fun p => cellQ p.2)).sum = (w.map cellQ).sum := by
  intro v
  induction v with
  | nil =>
      intro w h
      cases w with
      | nil => rfl
      | cons c cs => simp at h
  | cons a v ih =>
      intro w h
      cases w with
      | nil => simp at h
      | cons c cs =>
          simp only [List.zip_cons_cons, List.map_cons, List.sum_cons]
          rw [ih cs (by simpa using h)]

def c7tv : Table :=
  { cols := ["A"], rows := [(0, [Cell.num 1]), (1, [Cell.num 2]), (2, [Cell.num 3])] }

def c7tl : Table :=
  { cols := ["A"], rows := [(0, [Cell.str "x"]), (1, [Cell.str "y"]), (2, [Cell.str "z"])] }

/-- C7 counterexample: the unrestricted claim fails on reachable states.
After dropRows removes the rows holding 2 and 3 from a 3-row dataset, the
weighted counts sum to 1 (every per-value weighted sum an exact integer, so
no rounding slack at all) while the stale stored totalWeight is still 3 —
beyond even the half-unit-per-distinct-value tolerance for the map's three
keys.  And after setWeights (whose stringified replace leaves the Weights
column holding the raw values [1, 2]), the unweighted counts of the Weights
column — tallied by the visualizer like any other column — sum to 1 against
2 rows, because the construction-time value-label map no longer covers the
column. -/
theorem c7_counterexample :
    (((Survey.init c7tv c7tl "").bind
        (fun s => drop_rows s [("A", [Cell.num 2, Cell.num 3])])).bind
      (fun s => (get_column_value_counts s "A" true).map
        (fun l => ((l.map Prod.snd).sum, s.total_weight))) =
      Except.ok (1, 3)) ∧
    ¬(|(((1 : Int) : ℚ)) - 3| ≤ (3 : ℚ) / 2) ∧
    (((Survey.init c2tv c2tl "").bind
        (fun s => set_weights s [("A", [("1", 1), ("2", 1)])])).bind
      (fun s => (get_column_value_counts s "Weights" false).map
        (fun l => ((l.map Prod.snd).sum, s.data_values.rows.length))) =
      Except.ok (1, 2)) ∧
    (1 : Int) ≠ 2 := by
  refine ⟨?_, ?_, ?_, ?_⟩
  · with_unfolding_all decide
  · with_unfolding_all decide
  · with_unfolding_all decide
  · decide

/-- C7 amended: the tallies sum as claimed on every dataset state that still
satisfies the construction-time invariants — the column's value-label map
entry has pairwise-distinct keys covering every current cell of the column,
and the stored totalWeight equals the current Weights-column sum.  On such
states the counts of columnValueCounts sum to the number of rows when
useWeights=false, and when useWeights=true their sum differs from totalWeight
by at most half a unit per distinct value, each per-value weighted sum being
rounded to the nearest integer (half away from zero).  dropRows (stale
totalWeight and map) and setWeights (the Weights column acquires values the
stale map misses) break these invariants, whence c7_counterexample: the
claim's unrestricted "for every dataset" form is false. -/
theorem c7_counts_sum (s : Survey) (column_name : String)
    (m : List (Cell × Cell)) (vcolumn wcolumn : List Cell)
    (hm : findVal column_name s.value_label_mapping = some m)
    (hv : getColByName s.data_values column_name = Except.ok vcolumn)
    (hw : getColByName s.data_values "Weights" = Except.ok wcolumn)
    (hnd : (m.map Prod.fst).Nodup)
    (hcov : ∀ c ∈ vcolumn, c ∈ m.map Prod.fst)
    (htw : s.total_weight = (wcolumn.map cellQ).sum) :
    (∀ l, get_column_value_counts s column_name false = Except.ok l →
        (l.map Prod.snd).sum = (s.data_values.rows.length : Int)) ∧
    (∀ l, get_column_value_counts s column_name true = Except.ok l →
        |(((l.map Prod.snd).sum : Int) : ℚ) - s.total_weight| ≤ (m.length : ℚ) / 2) := by
  constructor
  · intro l hl
    simp only [get_column_value_counts, hm, hv, Bool.false_eq_true, if_false] at hl
    cases hl
    rw [sortPairs_snd_sum, List.map_map]
    have e1 : (Prod.snd ∘ fun v => (v, rawCountFor vcolumn v)) =
        fun v => rawCountFor vcolumn v := rfl
    rw [e1]
    have e2 : ∀ v ∈ m.map Prod.fst, rawCountFor vcolumn v =
        ((vcolumn.filter (fun c => decide (c = v))).map (fun _ => (1 : Int))).sum := by
      intro v _
      rw [rawCountFor, lenOneSum]
    rw [listMapCongr _ _ (m.map Prod.fst) e2]
    have hpart := partitionSum (m.map Prod.fst) (fun c => c) (fun _ => (1 : Int)) hnd
      vcolumn hcov
    rw [hpart, lenOneSum, getColByName_length s.data_values column_name vcolumn hv]
  · intro l hl
    simp only [get_column_value_counts, hm, hv, hw, if_true] at hl
    cases hl
    rw [sortPairs_snd_sum, List.map_map]
    have e1 : (Prod.snd ∘ fun v => (v, weightedCountFor vcolumn wcolumn v)) =
        fun v => pyRound ((((vcolumn.zip wcolumn).filter
          (fun p => decide (p.1 = v))).map (fun p => cellQ p.2)).sum) := rfl
    rw [e1]
    have e2 : ((m.map Prod.fst).map (fun v => pyRound ((((vcolumn.zip wcolumn).filter
        (fun p => decide (p.1 = v))).map (fun p => cellQ p.2)).sum))) =
        (((m.map Prod.fst).map (fun v => (((vcolumn.zip wcolumn).filter
          (fun p => decide (p.1 = v))).map (fun p => cellQ p.2)).sum)).map pyRound) := by
      simp only [List.map_map]
      rfl
    rw [e2]
    have hqs := sumRoundErr ((m.map Prod.fst).map (fun v => (((vcolumn.zip wcolumn).filter
      (fun p => decide (p.1 = v))).map (fun p => cellQ p.2)).sum))
    have hpart := partitionSum (m.map Prod.fst) (fun p : Cell × Cell => p.1)
      (fun p : Cell × Cell => cellQ p.2) hnd (vcolumn.zip wcolumn)
      (fun p hp => hcov p.1 (List.of_mem_zip hp).1)
    have hlen : vcolumn.length = wcolumn.length := by
      rw [getColByName_length s.data_values column_name vcolumn hv,
        getColByName_length s.data_values "Weights" wcolumn hw]
    have hzip := zip_snd_sum vcolumn wcolumn hlen
    rw [hpart, hzip, ← htw] at hqs
    simpa using hqs

/-- Witness for c7_counts_sum on the constructed two-row survey c2s. -/
theorem c7_witness :
    (findVal "A" c2s.value_label_mapping =
        some [(Cell.num 1, Cell.str "x"), (Cell.num 2, Cell.str "y")] ∧
     getColByName c2s.data_values "A" = Except.ok [Cell.num 1, Cell.num 2] ∧
     getColByName c2s.data_values "Weights" = Except.ok [Cell.num 1, Cell.num 1] ∧
     get_column_value_counts c2s "A" false =
       Except.ok [(Cell.num 1, 1), (Cell.num 2, 1)]) ∧
    (([(Cell.num 1, (1 : Int)), (Cell.num 2, 1)].map Prod.snd).sum =
      (c2s.data_values.rows.length : Int)) :=
  ⟨⟨by with_unfolding_all decide, by with_unfolding_all decide,
    by with_unfolding_all decide, by with_unfolding_all decide⟩,
   (c7_counts_sum c2s "A" [(Cell.num 1, Cell.str "x"), (Cell.num 2, Cell.str "y")]
      [Cell.num 1, Cell.num 2] [Cell.num 1, Cell.num 1]
      (by with_unfolding_all decide) (by with_unfolding_all decide)
      (by with_unfolding_all decide) (by with_unfolding_all decide)
      (by with_unfolding_all decide) (by with_unfolding_all decide)).1
     [(Cell.num 1, 1), (Cell.num 2, 1)] (by with_unfolding_all decide)⟩
